import Mathlib

/-!
Verification of the python-kasa transport layer (KLAP transport in
kasa/klaptransport.py and the legacy XOR protocol in kasa/protocol.py).

Byte strings are modelled as lists of natural numbers (each byte < 256 where
it matters), Python text strings as lists of Unicode code points.  The
external cryptographic primitives (MD5, SHA-1, SHA-256 and the AES block
cipher, all provided by the cryptography / hashlib libraries, not by this
repository) are abstracted as parameters; theorems assume only their
published interface properties (digest lengths, block-cipher inversion).
Everything written in the repository itself (CBC chaining, PKCS#7 padding,
sequence-number arithmetic, the handshake ladder, the transport state
machine, the auto-keyed XOR stream) is embedded faithfully.
-/

namespace Kasa

/-- A unicode scalar value: a code point that UTF-8 can encode
(below 0x110000 and not a surrogate). -/
def IsScalar (c : Nat) : Prop := c < 1114112 ∧ (c < 55296 ∨ 57344 ≤ c)

instance (c : Nat) : Decidable (IsScalar c) := by
  unfold IsScalar; infer_instance

/-- UTF-8 encoding of one scalar value, as Python's str.encode produces it. -/
def utf8EncodeChar (c : Nat) : List Nat :=
  if c < 128 then [c]
  else if c < 2048 then [192 + c / 64, 128 + c % 64]
  else if c < 65536 then
    [224 + c / 4096, 128 + c / 64 % 64, 128 + c % 64]
  else
    [240 + c / 262144, 128 + c / 4096 % 64, 128 + c / 64 % 64, 128 + c % 64]

/-- UTF-8 encoding of a Python string (list of code points), i.e. s.encode(). -/
def utf8Encode (s : List Nat) : List Nat := (s.map utf8EncodeChar).flatten

/-- Continuation-byte test used by strict UTF-8 decoding. -/
def isCont (b : Nat) : Bool := decide (128 ≤ b) && decide (b < 192)

/-- Strict decoding of a single UTF-8 character from the front of a byte
list, returning the code point and the remaining bytes; rejects invalid
lead bytes, truncated sequences, overlong forms, surrogates and values
above 0x10FFFF, as Python's strict bytes.decode does. -/
def utf8DecodeChar1 : List Nat → Option (Nat × List Nat)
  | [] => none
  | b0 :: rest =>
    if b0 < 128 then some (b0, rest)
    else if b0 < 194 then none
    else if b0 < 224 then
      match rest with
      | b1 :: rest2 =>
        if isCont b1 then some ((b0 - 192) * 64 + (b1 - 128), rest2) else none
      | [] => none
    else if b0 < 240 then
      match rest with
      | b1 :: b2 :: rest3 =>
        let c := (b0 - 224) * 4096 + (b1 - 128) * 64 + (b2 - 128)
        if isCont b1 && isCont b2 && decide (2048 ≤ c) &&
            (decide (c < 55296) || decide (57344 ≤ c)) then
          some (c, rest3)
        else none
      | _ => none
    else if b0 < 245 then
      match rest with
      | b1 :: b2 :: b3 :: rest4 =>
        let c := (b0 - 240) * 262144 + (b1 - 128) * 4096 + (b2 - 128) * 64 +
          (b3 - 128)
        if isCont b1 && isCont b2 && isCont b3 && decide (65536 ≤ c) &&
            decide (c < 1114112) then
          some (c, rest4)
        else none
      | _ => none
    else none

/-- Fuelled strict UTF-8 decoding loop; each step consumes at least one
byte, so fuel equal to the byte count suffices. -/
def utf8DecodeAux : Nat → List Nat → Option (List Nat)
  | _, [] => some []
  | 0, _ :: _ => none
  | fuel + 1, l =>
    match utf8DecodeChar1 l with
    | none => none
    | some (c, rest) => (utf8DecodeAux fuel rest).map (fun s => c :: s)

/-- Strict UTF-8 decoding of a byte list (Python bytes.decode()), returning
the list of decoded code points, or none on a decode error. -/
def utf8Decode (l : List Nat) : Option (List Nat) := utf8DecodeAux l.length l

/-- Big-endian unsigned serialisation of a natural number on n bytes,
as Python's int.to_bytes(n, big) produces for an in-range value. -/
def natToBeBytes : Nat → Nat → List Nat
  | 0, _ => []
  | n + 1, v => natToBeBytes n (v / 256) ++ [v % 256]

/-- Big-endian unsigned interpretation of a byte list, as Python's
int.from_bytes(l, big). -/
def beBytesToNat (l : List Nat) : Nat := l.foldl (fun a b => a * 256 + b) 0

/-- Big-endian signed (two's-complement) interpretation of a byte list,
as Python's int.from_bytes(l, big, signed=True). -/
def intFromBeSignedBytes (l : List Nat) : Int :=
  let u := beBytesToNat l
  if 2 * u < 2 ^ (8 * l.length) then (u : Int)
  else (u : Int) - 2 ^ (8 * l.length)

/-- Big-endian signed (two's-complement) serialisation on n bytes, as
Python's v.to_bytes(n, big, signed=True): returns none (an OverflowError
in Python) when v is outside the signed n-byte range. -/
def intToBeSignedBytes (n : Nat) (v : Int) : Option (List Nat) :=
  if -(2 ^ (8 * n - 1) : Int) ≤ v ∧ v < 2 ^ (8 * n - 1) then
    some (natToBeBytes n (v % (2 ^ (8 * n) : Int)).toNat)
  else none

namespace TPLinkSmartHomeProtocol

/-- The fixed initial XOR key byte (0xAB). -/
def INITIALIZATION_VECTOR : Nat := 171

/-- The _xor_payload generator: the running key starts at the IV and each
output byte (key XOR plaintext byte) becomes the next key. -/
def xorPayload (key : Nat) : List Nat → List Nat
  | [] => []
  | b :: rest => (key ^^^ b) :: xorPayload (key ^^^ b) rest

/-- TPLinkSmartHomeProtocol.encrypt: UTF-8 encode the request, then emit the
4-byte big-endian length of the plaintext followed by the auto-keyed XOR
stream.  Python's struct.pack raises for lengths at or above 2^32, which is
modelled by returning none there. -/
def encrypt (request : List Nat) : Option (List Nat) :=
  let plainbytes := utf8Encode request
  if plainbytes.length < 2 ^ 32 then
    some (natToBeBytes 4 plainbytes.length ++
      xorPayload INITIALIZATION_VECTOR plainbytes)
  else none

/-- The _xor_encrypted_payload generator: each plainbyte is the running key
XOR the cipherbyte, and the cipherbyte becomes the next key. -/
def xorEncryptedPayload (key : Nat) : List Nat → List Nat
  | [] => []
  | cb :: rest => (key ^^^ cb) :: xorEncryptedPayload cb rest

/-- TPLinkSmartHomeProtocol.decrypt: undo the auto-keyed XOR stream and
decode the result as UTF-8 text. -/
def decrypt (ciphertext : List Nat) : Option (List Nat) :=
  utf8Decode (xorEncryptedPayload INITIALIZATION_VECTOR ciphertext)

end TPLinkSmartHomeProtocol

/-! Abstract interface to the external cryptography primitives used by
kasa/klaptransport.py.  hashlib and the cryptography package are
third-party libraries, not part of this repository, so their functions are
parameters; theorems assume only their published interface facts. -/

/-- The external digest functions and AES-128 block cipher, as parameters. -/
structure CryptoPrims where
  sha256 : List Nat → List Nat
  sha1 : List Nat → List Nat
  md5 : List Nat → List Nat
  aesEncBlock : List Nat → List Nat → List Nat
  aesDecBlock : List Nat → List Nat → List Nat

/-- Interface fact about SHA-256: digests are 32 bytes, each below 256. -/
def Sha256Spec (P : CryptoPrims) : Prop :=
  ∀ b, (P.sha256 b).length = 32 ∧ ∀ x ∈ P.sha256 b, x < 256

/-- Interface fact about the AES block cipher: on 16-byte blocks decryption
inverts encryption, and encryption preserves the block length. -/
def AesBlockSpec (P : CryptoPrims) : Prop :=
  ∀ k b, b.length = 16 →
    P.aesDecBlock k (P.aesEncBlock k b) = b ∧ (P.aesEncBlock k b).length = 16

/-- Bytewise XOR of two byte lists (truncating to the shorter). -/
def xorBytes (a b : List Nat) : List Nat := List.zipWith (fun x y => x ^^^ y) a b

/-- PKCS#7 padding to the 16-byte AES block size, as
padding.PKCS7(128).padder() produces: append k copies of the byte k where
k = 16 - len mod 16 (so 1 ≤ k ≤ 16). -/
def pkcs7Pad (msg : List Nat) : List Nat :=
  let k := 16 - msg.length % 16
  msg ++ List.replicate k k

/-- PKCS#7 unpadding, as padding.PKCS7(128).unpadder() checks it: the data
must be a non-empty multiple of 16 bytes whose last byte k lies in 1..16
and whose last k bytes all equal k; any violation raises ValueError,
modelled by none. -/
def pkcs7Unpad (data : List Nat) : Option (List Nat) :=
  if data.length % 16 = 0 ∧ data.length ≠ 0 then
    let k := data.getLastD 0
    if 1 ≤ k ∧ k ≤ 16 ∧
        (data.drop (data.length - k)).all (fun b => decide (b = k)) then
      some (data.take (data.length - k))
    else none
  else none

/-- CBC-mode encryption over n 16-byte blocks: each plaintext block is
XORed with the previous ciphertext block (the IV first) and sent through
the block encryption. -/
def cbcEncryptBlocks (E : List Nat → List Nat) :
    Nat → List Nat → List Nat → List Nat
  | 0, _, _ => []
  | n + 1, prev, data =>
    let c := E (xorBytes prev (data.take 16))
    c ++ cbcEncryptBlocks E n c (data.drop 16)

/-- CBC-mode decryption over n 16-byte blocks: each ciphertext block is
block-decrypted and XORed with the previous ciphertext block (the IV
first). -/
def cbcDecryptBlocks (D : List Nat → List Nat) :
    Nat → List Nat → List Nat → List Nat
  | 0, _, _ => []
  | n + 1, prev, data =>
    xorBytes prev (D (data.take 16)) ++
      cbcDecryptBlocks D n (data.take 16) (data.drop 16)

/-- AES-128-CBC encryption of a whole payload: the cryptography library's
encryptor raises on data that is not a multiple of the 16-byte block size
(modelled by none). -/
def aesCbcEncrypt (P : CryptoPrims) (key iv data : List Nat) :
    Option (List Nat) :=
  if data.length % 16 = 0 then
    some (cbcEncryptBlocks (P.aesEncBlock key) (data.length / 16) iv data)
  else none

/-- AES-128-CBC decryption of a whole payload: the cryptography library's
decryptor raises on data that is not a multiple of the 16-byte block size
(modelled by none). -/
def aesCbcDecrypt (P : CryptoPrims) (key iv data : List Nat) :
    Option (List Nat) :=
  if data.length % 16 = 0 then
    some (cbcDecryptBlocks (P.aesDecBlock key) (data.length / 16) iv data)
  else none

/-! Embedding of KlapEncryptionSession from kasa/klaptransport.py. -/

/-- The session state: the three seeds it was built from, the derived AES
key (_key), the 12-byte IV part (_iv), the sequence counter (_seq, a Python
int, hence unbounded) and the 28-byte signature material (_sig). -/
structure KlapEncryptionSession where
  local_seed : List Nat
  remote_seed : List Nat
  user_hash : List Nat
  key : List Nat
  iv : List Nat
  seq : Int
  sig : List Nat

namespace KlapEncryptionSession

/-- _key_derive: sha256(b"lsk" + local_seed + remote_seed + user_hash)[:16].
The byte string b"lsk" is [108, 115, 107]. -/
def keyDerive (P : CryptoPrims) (ls rs uh : List Nat) : List Nat :=
  (P.sha256 ([108, 115, 107] ++ ls ++ rs ++ uh)).take 16

/-- _iv_derive: fulliv = sha256(b"iv" + local_seed + remote_seed +
user_hash); returns (fulliv[:12], int.from_bytes(fulliv[-4:], big,
signed=True)).  The byte string b"iv" is [105, 118]. -/
def ivDerive (P : CryptoPrims) (ls rs uh : List Nat) : List Nat × Int :=
  let fulliv := P.sha256 ([105, 118] ++ ls ++ rs ++ uh)
  (fulliv.take 12, intFromBeSignedBytes (fulliv.drop (fulliv.length - 4)))

/-- _sig_derive: sha256(b"ldk" + local_seed + remote_seed + user_hash)[:28].
The byte string b"ldk" is [108, 100, 107]. -/
def sigDerive (P : CryptoPrims) (ls rs uh : List Nat) : List Nat :=
  (P.sha256 ([108, 100, 107] ++ ls ++ rs ++ uh)).take 28

/-- The __init__ constructor: derives _key, (_iv, _seq) and _sig from the
seeds and the auth hash. -/
def build (P : CryptoPrims) (ls rs uh : List Nat) : KlapEncryptionSession :=
  { local_seed := ls, remote_seed := rs, user_hash := uh,
    key := keyDerive P ls rs uh,
    iv := (ivDerive P ls rs uh).1,
    seq := (ivDerive P ls rs uh).2,
    sig := sigDerive P ls rs uh }

/-- _iv_seq: _iv with _seq.to_bytes(4, big, signed=True) appended; the
to_bytes call raises OverflowError outside the signed 32-bit range,
modelled by none. -/
def ivSeq (s : KlapEncryptionSession) : Option (List Nat) :=
  (intToBeSignedBytes 4 s.seq).map (fun sq => s.iv ++ sq)

/-- encrypt: increments _seq first, then encrypts under the fresh IV: the
message is PKCS#7-padded and AES-CBC-encrypted, and the blob is the
SHA-256 signature over _sig + seq-bytes + ciphertext, followed by the
ciphertext.  The mutated session is returned alongside; a none result
models the OverflowError raised when serialising an out-of-range _seq
(the increment has happened by then, as in the Python). -/
def encrypt (P : CryptoPrims) (s : KlapEncryptionSession) (msg : List Nat) :
    Option (List Nat × Int) × KlapEncryptionSession :=
  let s' := { s with seq := s.seq + 1 }
  match intToBeSignedBytes 4 s'.seq with
  | none => (none, s')
  | some seqB =>
    let iv := s'.iv ++ seqB
    let padded := pkcs7Pad msg
    match aesCbcEncrypt P s'.key iv padded with
    | none => (none, s')
    | some ciphertext =>
      let signature := P.sha256 (s'.sig ++ seqB ++ ciphertext)
      (some (signature ++ ciphertext, s'.seq), s')

/-- decrypt: builds the IV from the current _seq, discards the first 32
bytes of the message unverified, AES-CBC-decrypts the remainder, strips
the PKCS#7 padding and decodes the plaintext bytes as UTF-8 text (the
final .decode() call); any of these steps failing raises in Python,
modelled by none. -/
def decrypt (P : CryptoPrims) (s : KlapEncryptionSession) (msg : List Nat) :
    Option (List Nat) :=
  match ivSeq s with
  | none => none
  | some iv =>
    match aesCbcDecrypt P s.key iv (msg.drop 32) with
    | none => none
    | some dp =>
      match pkcs7Unpad dp with
      | none => none
      | some plaintextbytes => utf8Decode plaintextbytes

end KlapEncryptionSession

/-- Modelled from the spec: the Credentials type lives in kasa/credentials.py,
which is not part of the analysed sources; the spec describes it as a pair
(username, password) of possibly-empty text strings with the two
distinguished pairs (kasa@tp-link.net, kasaSetup) and blank.  Text is a
list of code points; equality is fieldwise, as for a Python dataclass. -/
structure Credentials where
  username : List Nat
  password : List Nat
deriving DecidableEq

/-- Blank credentials, Credentials(username="", password=""). -/
def blankCredentials : Credentials := { username := [], password := [] }

/-- The well-known kasa-setup credentials
("kasa@tp-link.net", "kasaSetup"), given as code points. -/
def kasaSetupCredentials : Credentials :=
  { username := [107, 97, 115, 97, 64, 116, 112, 45, 108, 105, 110, 107, 46,
                 110, 101, 116],
    password := [107, 97, 115, 97, 83, 101, 116, 117, 112] }

/-- KlapTransport.generate_auth_hash (v1):
md5(md5(username_utf8) + md5(password_utf8)). -/
def generate_auth_hash (P : CryptoPrims) (creds : Credentials) : List Nat :=
  P.md5 (P.md5 (utf8Encode creds.username) ++ P.md5 (utf8Encode creds.password))

/-- KlapTransport.handshake1_seed_auth_hash (v1):
sha256(local_seed + auth_hash); the remote_seed parameter is accepted but
unused, exactly as in the source. -/
def handshake1_seed_auth_hash (P : CryptoPrims)
    (local_seed remote_seed auth_hash : List Nat) : List Nat :=
  P.sha256 (local_seed ++ auth_hash)

/-- KlapTransport.handshake2_seed_auth_hash (v1):
sha256(remote_seed + auth_hash); the local_seed parameter is unused. -/
def handshake2_seed_auth_hash (P : CryptoPrims)
    (local_seed remote_seed auth_hash : List Nat) : List Nat :=
  P.sha256 (remote_seed ++ auth_hash)

/-- TPlinkKlapTransportV2.generate_auth_hash:
sha256(sha1(username_utf8) + sha1(password_utf8)). -/
def v2_generate_auth_hash (P : CryptoPrims) (creds : Credentials) : List Nat :=
  P.sha256 (P.sha1 (utf8Encode creds.username) ++
    P.sha1 (utf8Encode creds.password))

/-- TPlinkKlapTransportV2.handshake1_seed_auth_hash:
sha256(local_seed + remote_seed + auth_hash). -/
def v2_handshake1_seed_auth_hash (P : CryptoPrims)
    (local_seed remote_seed auth_hash : List Nat) : List Nat :=
  P.sha256 (local_seed ++ remote_seed ++ auth_hash)

/-- TPlinkKlapTransportV2.handshake2_seed_auth_hash:
sha256(remote_seed + local_seed + auth_hash). -/
def v2_handshake2_seed_auth_hash (P : CryptoPrims)
    (local_seed remote_seed auth_hash : List Nat) : List Nat :=
  P.sha256 (remote_seed ++ local_seed ++ auth_hash)

/-- The strategy interface distinguishing KlapTransport (v1) from
TPlinkKlapTransportV2: the three overridable static hash constructors. -/
structure KlapVariant where
  generateAuthHash : CryptoPrims → Credentials → List Nat
  handshake1SeedAuthHash : CryptoPrims → List Nat → List Nat → List Nat → List Nat
  handshake2SeedAuthHash : CryptoPrims → List Nat → List Nat → List Nat → List Nat

/-- The KlapTransport (v1) hash strategy. -/
def v1Variant : KlapVariant :=
  { generateAuthHash := generate_auth_hash,
    handshake1SeedAuthHash := handshake1_seed_auth_hash,
    handshake2SeedAuthHash := handshake2_seed_auth_hash }

/-- The TPlinkKlapTransportV2 hash strategy. -/
def v2Variant : KlapVariant :=
  { generateAuthHash := v2_generate_auth_hash,
    handshake1SeedAuthHash := v2_handshake1_seed_auth_hash,
    handshake2SeedAuthHash := v2_handshake2_seed_auth_hash }

/-- The exceptions the transport code raises.  authentication models
AuthenticationException (the spec's AuthenticationError), smartDevice
models SmartDeviceException (the spec's ProtocolError), overflowError the
OverflowError escaping from seq serialisation, and crash the
UnboundLocalError / ValueError / UnicodeDecodeError paths that are not
caught anywhere (exceptions.py is not part of the analysed sources; the
hierarchy is modelled from the spec's three error kinds). -/
inductive KlapError where
  | authentication
  | smartDevice
  | overflowError
  | crash
deriving DecidableEq

/-- The mutable fields of a KlapTransport object that the handshake and
send paths touch.  The auth-hash fields mirror the memoised
_local_auth_hash, _kasa_setup_auth_hash and _blank_auth_hash; the http
client presence mirrors _http_client (close sets it to None). -/
structure KlapTransportState where
  credentials : Credentials
  localAuthHash : List Nat
  kasaSetupAuthHash : Option (List Nat)
  blankAuthHash : Option (List Nat)
  handshakeDone : Bool
  encryptionSession : Option KlapEncryptionSession
  sessionExpireAt : Option Int
  sessionCookie : Option (List Nat)
  httpClient : Bool

namespace KlapTransport

/-- KlapTransport.__init__: missing credentials become blank; the local
auth hash is derived at once; every session field starts empty. -/
def create (P : CryptoPrims) (V : KlapVariant)
    (credentials : Option Credentials) : KlapTransportState :=
  let creds := credentials.getD blankCredentials
  { credentials := creds,
    localAuthHash := V.generateAuthHash P creds,
    kasaSetupAuthHash := none,
    blankAuthHash := none,
    handshakeDone := false,
    encryptionSession := none,
    sessionExpireAt := none,
    sessionCookie := none,
    httpClient := true }

/-- KlapTransport._handshake_session_expired: true when no expiry is set
or the expiry is not in the future.  Time is modelled as an integer. -/
def handshakeSessionExpired (st : KlapTransportState) (now : Int) : Bool :=
  match st.sessionExpireAt with
  | none => true
  | some e => decide (e - now ≤ 0)

/-- KlapTransport.needs_handshake: the handshake has not completed or the
session has expired. -/
def needsHandshake (st : KlapTransportState) (now : Int) : Bool :=
  !st.handshakeDone || handshakeSessionExpired st now

/-- KlapTransport.perform_handshake1, as a function of the device's
response (status, body).  The local seed is a parameter (the Python draws
it from secrets.token_bytes).  A non-200 status raises
AuthenticationException; otherwise the body splits into remote_seed
(first 16 bytes) and server_hash (the rest), and the candidate auth
hashes are tried in order: the configured credentials, the kasa-setup
credentials (memoised), then - only when the configured credentials are
not blank - the blank credentials (memoised).  The first match returns
(local_seed, remote_seed, auth_hash); no match raises
AuthenticationException.  The returned state carries the memo updates. -/
def performHandshake1 (P : CryptoPrims) (V : KlapVariant)
    (st : KlapTransportState) (local_seed : List Nat) (responseStatus : Nat)
    (responseData : List Nat) :
    Except KlapError (List Nat × List Nat × List Nat) × KlapTransportState :=
  if responseStatus ≠ 200 then (.error .authentication, st)
  else
    let remote_seed := responseData.take 16
    let server_hash := responseData.drop 16
    let local_seed_auth_hash :=
      V.handshake1SeedAuthHash P local_seed remote_seed st.localAuthHash
    if local_seed_auth_hash = server_hash then
      (.ok (local_seed, remote_seed, st.localAuthHash), st)
    else
      let kasaHash :=
        match st.kasaSetupAuthHash with
        | some h => h
        | none => V.generateAuthHash P kasaSetupCredentials
      let st1 := { st with kasaSetupAuthHash := some kasaHash }
      if V.handshake1SeedAuthHash P local_seed remote_seed kasaHash =
          server_hash then
        (.ok (local_seed, remote_seed, kasaHash), st1)
      else
        if st.credentials ≠ blankCredentials then
          let blankHash :=
            match st1.blankAuthHash with
            | some h => h
            | none => V.generateAuthHash P blankCredentials
          let st2 := { st1 with blankAuthHash := some blankHash }
          if V.handshake1SeedAuthHash P local_seed remote_seed blankHash =
              server_hash then
            (.ok (local_seed, remote_seed, blankHash), st2)
          else (.error .authentication, st2)
        else (.error .authentication, st1)

/-- KlapTransport.perform_handshake2, as a function of the device's
response status: non-200 raises AuthenticationException, otherwise the
encryption session is built from the three inputs. -/
def performHandshake2 (P : CryptoPrims)
    (local_seed remote_seed auth_hash : List Nat) (responseStatus : Nat) :
    Except KlapError KlapEncryptionSession :=
  if responseStatus ≠ 200 then .error .authentication
  else .ok (KlapEncryptionSession.build P local_seed remote_seed auth_hash)

/-- KlapTransport.perform_handshake, as a function of both responses and
of the session cookie the device set during handshake1.  It first clears
_handshake_done, _session_expire_at and _session_cookie, then runs
handshake1; on success it stores the cookie, sets the expiry to now +
86400 seconds and runs handshake2; on its success it stores the new
encryption session and sets _handshake_done. -/
def performHandshake (P : CryptoPrims) (V : KlapVariant)
    (st : KlapTransportState) (now : Int) (local_seed : List Nat)
    (h1Status : Nat) (h1Data : List Nat) (deviceCookie : Option (List Nat))
    (h2Status : Nat) : Except KlapError Unit × KlapTransportState :=
  let st0 :=
    { st with
      handshakeDone := false
      sessionExpireAt := none
      sessionCookie := none }
  match performHandshake1 P V st0 local_seed h1Status h1Data with
  | (.error e, st1) => (.error e, st1)
  | (.ok (ls, rs, ah), st1) =>
    let st2 := { st1 with sessionCookie := deviceCookie }
    let st3 := { st2 with sessionExpireAt := some (now + 86400) }
    match performHandshake2 P ls rs ah h2Status with
    | .error e => (.error e, st3)
    | .ok session =>
      (.ok (),
        { st3 with
          encryptionSession := some session
          handshakeDone := true })

/-- KlapTransport.send, as a function of the device's response (status,
body).  The guard raises SmartDeviceException when a handshake is needed
(needs_login is always false, so its guard never fires); the request text
is UTF-8 encoded and encrypted (the crash case models the unbound payload
variable when no session exists; overflowError the OverflowError from
seq serialisation).  A 403 reply clears _handshake_done and raises
AuthenticationException; any other non-200 raises SmartDeviceException;
on 200 the body is decrypted (failures there propagate ValueError or
UnicodeDecodeError, modelled as crash) and the decoded text is returned
(JSON parsing by json_loads is left abstract: the decoded code points are
the result). -/
def send (P : CryptoPrims) (st : KlapTransportState) (now : Int)
    (request : List Nat) (responseStatus : Nat) (responseData : List Nat) :
    Except KlapError (List Nat) × KlapTransportState :=
  if needsHandshake st now then (.error .smartDevice, st)
  else
    match st.encryptionSession with
    | none => (.error .crash, st)
    | some es =>
      match KlapEncryptionSession.encrypt P es (utf8Encode request) with
      | (none, es') =>
        (.error .overflowError, { st with encryptionSession := some es' })
      | (some _payloadSeq, es') =>
        let st' := { st with encryptionSession := some es' }
        if responseStatus ≠ 200 then
          if responseStatus = 403 then
            (.error .authentication, { st' with handshakeDone := false })
          else (.error .smartDevice, st')
        else
          match KlapEncryptionSession.decrypt P es' responseData with
          | none => (.error .crash, st')
          | some decrypted => (.ok decrypted, st')

/-- KlapTransport.close: drops the http client; no session field changes. -/
def close (st : KlapTransportState) : KlapTransportState :=
  { st with httpClient := false }

end KlapTransport

namespace TPLinkSmartHomeProtocol

/-- Linux errno values for the non-retryable error set. -/
def EHOSTDOWN : Nat := 112

/-- Linux errno value for EHOSTUNREACH. -/
def EHOSTUNREACH : Nat := 113

/-- Linux errno value for ECONNREFUSED. -/
def ECONNREFUSED : Nat := 111

/-- _NO_RETRY_ERRORS = {EHOSTDOWN, EHOSTUNREACH, ECONNREFUSED}. -/
def NO_RETRY_ERRORS : List Nat := [EHOSTDOWN, EHOSTUNREACH, ECONNREFUSED]

/-- Outcome of the _connect call in one loop iteration. -/
inductive ConnectOutcome where
  | ok
  | refused
  | osError (errno : Nat)
  | otherError
deriving DecidableEq

/-- Outcome of the _execute_query call in one loop iteration (only reached
when the connect succeeded). -/
inductive QueryOutcome where
  | ok (response : List Nat)
  | failure
deriving DecidableEq

/-- The environment behaviour of one loop iteration. -/
structure Attempt where
  connect : ConnectOutcome
  query : QueryOutcome
deriving DecidableEq

/-- An iteration outcome that falls into the generic retry-on-failure
paths: an OSError with a retryable errno, any other connect exception, or
a failure inside _execute_query. -/
def RetryableFailure (a : Attempt) : Prop :=
  (∃ e, a.connect = ConnectOutcome.osError e ∧ e ∉ NO_RETRY_ERRORS) ∨
  a.connect = ConnectOutcome.otherError ∨
  (a.connect = ConnectOutcome.ok ∧ a.query = QueryOutcome.failure)

/-- The body of the for-loop in _query: retry is the current index, fuel
the number of remaining iterations (retry_count + 1 - retry).  Returns
the result together with the number of attempts consumed.  ConnectionRefused
raises immediately; an OSError raises when its errno is non-retryable or
the retries are exhausted; other connect errors and query failures raise
when the retries are exhausted; falling out of the loop hits the
unreachable guard raise at the bottom of _query. -/
def queryLoopGo (attempts : Nat → Attempt) (retryCount : Nat) :
    Nat → Nat → Except KlapError (List Nat) × Nat
  | 0, _ => (.error .smartDevice, 0)
  | fuel + 1, retry =>
    let a := attempts retry
    match a.connect with
    | ConnectOutcome.refused => (.error .smartDevice, 1)
    | ConnectOutcome.osError e =>
      if e ∈ NO_RETRY_ERRORS ∨ retryCount ≤ retry then
        (.error .smartDevice, 1)
      else
        let r := queryLoopGo attempts retryCount fuel (retry + 1)
        (r.1, r.2 + 1)
    | ConnectOutcome.otherError =>
      if retryCount ≤ retry then (.error .smartDevice, 1)
      else
        let r := queryLoopGo attempts retryCount fuel (retry + 1)
        (r.1, r.2 + 1)
    | ConnectOutcome.ok =>
      match a.query with
      | QueryOutcome.ok response => (.ok response, 1)
      | QueryOutcome.failure =>
        if retryCount ≤ retry then (.error .smartDevice, 1)
        else
          let r := queryLoopGo attempts retryCount fuel (retry + 1)
          (r.1, r.2 + 1)

/-- TPLinkSmartHomeProtocol._query: for retry in range(retry_count + 1),
driven by the environment's per-iteration outcomes.  Returns the result
(ok response, or the raised error as SmartDeviceException) and the number
of loop iterations that ran. -/
def queryLoop (attempts : Nat → Attempt) (retryCount : Nat) :
    Except KlapError (List Nat) × Nat :=
  queryLoopGo attempts retryCount (retryCount + 1) 0

/-- An iteration outcome that aborts the loop at once regardless of the
remaining retries: a ConnectionRefusedError, or an OSError whose errno is
in _NO_RETRY_ERRORS. -/
def NonRetryAbort (a : Attempt) : Prop :=
  a.connect = ConnectOutcome.refused ∨
  ∃ e, a.connect = ConnectOutcome.osError e ∧ e ∈ NO_RETRY_ERRORS

/-- An environment whose first iteration fails retryably and whose later
iterations get the connection refused; used to evaluate the retry policy
at explicit inputs. -/
def c8TestAttempts : Nat → Attempt := fun n =>
  if n = 0 then { connect := ConnectOutcome.otherError,
                  query := QueryOutcome.failure }
  else { connect := ConnectOutcome.refused, query := QueryOutcome.failure }

end TPLinkSmartHomeProtocol

/-- Invariant of the KlapTransport state: once _handshake_done is set, an
encryption session and an expiry timestamp are present. -/
def KlapInv (st : KlapTransportState) : Prop :=
  st.handshakeDone = true →
    st.encryptionSession.isSome ∧ st.sessionExpireAt.isSome

/-- A concrete instantiation of the primitive interface used to evaluate
the embedding at explicit inputs: constant digests and an identity block
cipher.  It satisfies Sha256Spec and AesBlockSpec. -/
def testPrims : CryptoPrims :=
  { sha256 := fun _ => List.replicate 32 0
    sha1 := fun _ => List.replicate 20 0
    md5 := fun _ => List.replicate 16 0
    aesEncBlock := fun _ b => b
    aesDecBlock := fun _ b => b }

/-- A primitive instantiation whose SHA-256 digests end in the bytes
0x7f 0xff 0xff 0xff, so that a freshly derived session starts at
seq = 2^31 - 1.  It satisfies Sha256Spec and AesBlockSpec. -/
def seqEdgePrims : CryptoPrims :=
  { sha256 := fun _ => List.replicate 28 0 ++ [127, 255, 255, 255]
    sha1 := fun _ => List.replicate 20 0
    md5 := fun _ => List.replicate 16 0
    aesEncBlock := fun _ b => b
    aesDecBlock := fun _ b => b }

/-- A session derived from testPrims with explicit 16-byte seeds. -/
def klapTestSession : KlapEncryptionSession :=
  KlapEncryptionSession.build testPrims (List.replicate 16 1)
    (List.replicate 16 2) (List.replicate 16 3)

/-- A session derived from seqEdgePrims with explicit 16-byte seeds; its
initial seq is 2^31 - 1 (the maximal signed 32-bit value). -/
def klapSeqEdgeSession : KlapEncryptionSession :=
  KlapEncryptionSession.build seqEdgePrims (List.replicate 16 1)
    (List.replicate 16 2) (List.replicate 16 3)

/-- A transport state as it stands right after a completed handshake,
used to evaluate the send path at explicit inputs. -/
def readyTransport : KlapTransportState :=
  { credentials := blankCredentials
    localAuthHash := generate_auth_hash testPrims blankCredentials
    kasaSetupAuthHash := none
    blankAuthHash := none
    handshakeDone := true
    encryptionSession := some klapTestSession
    sessionExpireAt := some 86400
    sessionCookie := none
    httpClient := true }

theorem utf8DecodeChar1_encodeChar (c : Nat) (hc : IsScalar c) (t : List Nat) :
    utf8DecodeChar1 (utf8EncodeChar c ++ t) = some (c, t) := by
  obtain ⟨h1, h2⟩ := hc
  unfold utf8EncodeChar
  by_cases hA : c < 128
  · simp only [if_pos hA, List.cons_append, List.nil_append, utf8DecodeChar1,
      if_pos hA]
  · by_cases hB : c < 2048
    · simp only [if_neg hA, if_pos hB, List.cons_append, List.nil_append,
        utf8DecodeChar1]
      have hd1 : ¬ (192 + c / 64 < 128) := by omega
      have hd2 : ¬ (192 + c / 64 < 194) := by
        have : 2 ≤ c / 64 := Nat.le_div_iff_mul_le (by norm_num) |>.mpr (by omega)
        omega
      have hd3 : 192 + c / 64 < 224 := by
        have : c / 64 < 32 := Nat.div_lt_of_lt_mul (by omega)
        omega
      have hm2 := Nat.mod_lt c (show 0 < 64 by norm_num)
      have hval : (192 + c / 64 - 192) * 64 + (128 + c % 64 - 128) = c := by
        have := Nat.div_add_mod c 64
        omega
      have hcont : isCont (128 + c % 64) = true := by
        simp only [isCont, Bool.and_eq_true, decide_eq_true_eq]
        omega
      rw [if_neg hd1, if_neg hd2, if_pos hd3, if_pos hcont, hval]
    · by_cases hC : c < 65536
      · simp only [if_neg hA, if_neg hB, if_pos hC, List.cons_append,
          List.nil_append, utf8DecodeChar1]
        have hq2 : c / 4096 < 16 := Nat.div_lt_of_lt_mul (by omega)
        have hd1 : ¬ (224 + c / 4096 < 128) := by omega
        have hd2 : ¬ (224 + c / 4096 < 194) := by omega
        have hd3 : ¬ (224 + c / 4096 < 224) := by omega
        have hd4 : 224 + c / 4096 < 240 := by omega
        have hm1 := Nat.mod_lt (c / 64) (show 0 < 64 by norm_num)
        have hm2 := Nat.mod_lt c (show 0 < 64 by norm_num)
        have hval : (224 + c / 4096 - 224) * 4096 +
            (128 + c / 64 % 64 - 128) * 64 + (128 + c % 64 - 128) = c := by
          have e1 := Nat.div_add_mod c 64
          have e2 := Nat.div_add_mod (c / 64) 64
          have e3 : c / 64 / 64 = c / 4096 := by
            rw [Nat.div_div_eq_div_mul]
          omega
        rw [if_neg hd1, if_neg hd2, if_neg hd3, if_pos hd4]
        simp only [hval]
        have hcond : (isCont (128 + c / 64 % 64) && isCont (128 + c % 64) &&
            decide (2048 ≤ c) && (decide (c < 55296) || decide (57344 ≤ c)))
            = true := by
          simp only [isCont, Bool.and_eq_true, Bool.or_eq_true,
            decide_eq_true_eq]
          omega
        rw [if_pos hcond]
      · simp only [if_neg hA, if_neg hB, if_neg hC, List.cons_append,
          List.nil_append, utf8DecodeChar1]
        have hq : c / 262144 < 5 := Nat.div_lt_of_lt_mul (by omega)
        have hd1 : ¬ (240 + c / 262144 < 128) := by omega
        have hd2 : ¬ (240 + c / 262144 < 194) := by omega
        have hd3 : ¬ (240 + c / 262144 < 224) := by omega
        have hd4 : ¬ (240 + c / 262144 < 240) := by omega
        have hd5 : 240 + c / 262144 < 245 := by omega
        have hm1 := Nat.mod_lt (c / 4096) (show 0 < 64 by norm_num)
        have hm2 := Nat.mod_lt (c / 64) (show 0 < 64 by norm_num)
        have hm3 := Nat.mod_lt c (show 0 < 64 by norm_num)
        have hval : (240 + c / 262144 - 240) * 262144 +
            (128 + c / 4096 % 64 - 128) * 4096 +
            (128 + c / 64 % 64 - 128) * 64 + (128 + c % 64 - 128) = c := by
          have e1 := Nat.div_add_mod c 64
          have e2 := Nat.div_add_mod (c / 64) 64
          have e3 := Nat.div_add_mod (c / 4096) 64
          have e4 : c / 64 / 64 = c / 4096 := by rw [Nat.div_div_eq_div_mul]
          have e5 : c / 4096 / 64 = c / 262144 := by
            rw [Nat.div_div_eq_div_mul]
          omega
        rw [if_neg hd1, if_neg hd2, if_neg hd3, if_neg hd4, if_pos hd5]
        simp only [hval]
        have hcond : (isCont (128 + c / 4096 % 64) && isCont (128 + c / 64 % 64)
            && isCont (128 + c % 64) && decide (65536 ≤ c) &&
            decide (c < 1114112)) = true := by
          simp only [isCont, Bool.and_eq_true, decide_eq_true_eq]
          omega
        rw [if_pos hcond]

theorem utf8DecodeAux_encode (s : List Nat) (hs : ∀ c ∈ s, IsScalar c)
    (fuel : Nat) (hf : (utf8Encode s).length ≤ fuel) :
    utf8DecodeAux fuel (utf8Encode s) = some s := by
  induction s generalizing fuel with
  | nil =>
    simp only [utf8Encode, List.map_nil, List.flatten_nil]
    cases fuel <;> rfl
  | cons c t ih =>
    have hc : IsScalar c := hs c (List.mem_cons_self c t)
    have ht : ∀ x ∈ t, IsScalar x := fun x hx => hs x (List.mem_cons_of_mem c hx)
    have henc : utf8Encode (c :: t) = utf8EncodeChar c ++ utf8Encode t := by
      simp [utf8Encode]
    have hlen1 : 1 ≤ (utf8EncodeChar c).length := by
      unfold utf8EncodeChar
      repeat' split
      all_goals simp
    rw [henc] at hf ⊢
    rw [List.length_append] at hf
    cases fuel with
    | zero => exact absurd hf (by omega)
    | succ fuel =>
      have hstep : utf8DecodeChar1 (utf8EncodeChar c ++ utf8Encode t) =
          some (c, utf8Encode t) := utf8DecodeChar1_encodeChar c hc _
      cases hl : utf8EncodeChar c ++ utf8Encode t with
      | nil =>
        rw [hl] at hstep
        simp [utf8DecodeChar1] at hstep
      | cons b l' =>
        rw [hl] at hstep
        rw [utf8DecodeAux, hstep]
        show Option.map (fun s => c :: s) (utf8DecodeAux fuel (utf8Encode t)) =
          some (c :: t)
        rw [ih ht fuel (by omega)]
        rfl
        simp

/-- Strict UTF-8 decoding inverts encoding on lists of scalar values. -/
theorem utf8Decode_utf8Encode (s : List Nat) (hs : ∀ c ∈ s, IsScalar c) :
    utf8Decode (utf8Encode s) = some s :=
  utf8DecodeAux_encode s hs _ (Nat.le_refl _)

theorem length_natToBeBytes (n v : Nat) : (natToBeBytes n v).length = n := by
  induction n generalizing v with
  | zero => rfl
  | succ n ih => simp [natToBeBytes, ih]

theorem beBytesToNat_append_singleton (l : List Nat) (b : Nat) :
    beBytesToNat (l ++ [b]) = beBytesToNat l * 256 + b := by
  simp [beBytesToNat, List.foldl_append]

theorem beBytesToNat_natToBeBytes (n v : Nat) :
    beBytesToNat (natToBeBytes n v) = v % 256 ^ n := by
  induction n generalizing v with
  | zero => simp [natToBeBytes, beBytesToNat, Nat.mod_one]
  | succ n ih =>
    rw [natToBeBytes, beBytesToNat_append_singleton, ih]
    have h2 : 256 ^ (n + 1) = 256 * 256 ^ n := by ring
    rw [h2, Nat.mod_mul]
    omega

theorem intToBeSignedBytes_4_eq (v : Int) (h1 : -(2 ^ 31) ≤ v)
    (h2 : v < 2 ^ 31) :
    intToBeSignedBytes 4 v = some (natToBeBytes 4 (v % 2 ^ 32).toNat) := by
  have hc : -(2 ^ (8 * 4 - 1) : Int) ≤ v ∧ v < 2 ^ (8 * 4 - 1) := by
    norm_num at h1 h2 ⊢
    omega
  rw [intToBeSignedBytes, if_pos hc]

theorem intFromBeSignedBytes_intToBeSignedBytes (v : Int) (h1 : -(2 ^ 31) ≤ v)
    (h2 : v < 2 ^ 31) (l : List Nat) (hl : intToBeSignedBytes 4 v = some l) :
    intFromBeSignedBytes l = v ∧ l.length = 4 := by
  rw [intToBeSignedBytes_4_eq v h1 h2] at hl
  cases hl
  set u : Nat := (v % 2 ^ 32).toNat with hu
  have hrange : 0 ≤ v % 2 ^ 32 ∧ v % 2 ^ 32 < 2 ^ 32 := by
    constructor
    · exact Int.emod_nonneg v (by norm_num)
    · exact Int.emod_lt_of_pos v (by norm_num)
  have hulT : (u : Int) = v % 2 ^ 32 := Int.toNat_of_nonneg hrange.1
  have hub : u < 2 ^ 32 := by omega
  have hlen : (natToBeBytes 4 u).length = 4 := length_natToBeBytes 4 u
  refine ⟨?_, hlen⟩
  rw [intFromBeSignedBytes, hlen, beBytesToNat_natToBeBytes]
  have humod : u % 256 ^ 4 = u := Nat.mod_eq_of_lt (by norm_num at hub ⊢; omega)
  rw [humod]
  have hemod : v % 2 ^ 32 = v - 2 ^ 32 * (v / 2 ^ 32) := Int.emod_def v (2 ^ 32)
  split <;> omega

namespace TPLinkSmartHomeProtocol

theorem xorEncryptedPayload_xorPayload (p : List Nat) :
    ∀ key, xorEncryptedPayload key (xorPayload key p) = p := by
  induction p with
  | nil => intro key; rfl
  | cons b rest ih =>
    intro key
    rw [xorPayload, xorEncryptedPayload, ih (key ^^^ b)]
    have : key ^^^ (key ^^^ b) = b := by
      rw [← Nat.xor_assoc, Nat.xor_self, Nat.zero_xor]
    rw [this]

theorem length_xorPayload (p : List Nat) :
    ∀ key, (xorPayload key p).length = p.length := by
  induction p with
  | nil => intro key; rfl
  | cons b rest ih => intro key; simp [xorPayload, ih]

theorem xorPayload_getD (p : List Nat) :
    ∀ key i, i < p.length →
      (xorPayload key p).getD i 0 =
        (if i = 0 then key else (xorPayload key p).getD (i - 1) 0) ^^^
          p.getD i 0 := by
  induction p with
  | nil => intro key i h; simp at h
  | cons b rest ih =>
    intro key i h
    cases i with
    | zero => rfl
    | succ j =>
      rw [xorPayload]
      have hj : j < rest.length := by simpa using h
      have := ih (key ^^^ b) j hj
      cases j with
      | zero =>
        simp only [List.getD_cons_succ, List.getD_cons_zero] at this ⊢
        simpa using this
      | succ m =>
        simp only [List.getD_cons_succ, Nat.succ_sub_one] at this ⊢
        simpa using this

end TPLinkSmartHomeProtocol

theorem length_xorBytes (a b : List Nat) :
    (xorBytes a b).length = min a.length b.length := by
  simp [xorBytes]

theorem xorBytes_cancel (a : List Nat) :
    ∀ b : List Nat, a.length = b.length → xorBytes a (xorBytes a b) = b := by
  induction a with
  | nil =>
    intro b hb
    cases b with
    | nil => rfl
    | cons x xs => simp at hb
  | cons x xs ih =>
    intro b hb
    cases b with
    | nil => simp at hb
    | cons y ys =>
      simp only [xorBytes, List.zipWith_cons_cons]
      have hx : x ^^^ (x ^^^ y) = y := by
        rw [← Nat.xor_assoc, Nat.xor_self, Nat.zero_xor]
      have := ih ys (by simpa using hb)
      simp only [xorBytes] at this
      rw [hx, this]

theorem length_pkcs7Pad (msg : List Nat) :
    (pkcs7Pad msg).length = msg.length + (16 - msg.length % 16) := by
  simp [pkcs7Pad]

theorem length_pkcs7Pad_mod (msg : List Nat) :
    (pkcs7Pad msg).length % 16 = 0 := by
  rw [length_pkcs7Pad]
  have := Nat.mod_lt msg.length (show 0 < 16 by norm_num)
  have := Nat.div_add_mod msg.length 16
  omega

theorem pkcs7Unpad_pkcs7Pad (msg : List Nat) :
    pkcs7Unpad (pkcs7Pad msg) = some msg := by
  have hmlt := Nat.mod_lt msg.length (show 0 < 16 by norm_num)
  set k := 16 - msg.length % 16 with hk
  have hk1 : 1 ≤ k := by omega
  have hk16 : k ≤ 16 := by omega
  have hlen : (pkcs7Pad msg).length = msg.length + k := length_pkcs7Pad msg
  have hmod : (pkcs7Pad msg).length % 16 = 0 := length_pkcs7Pad_mod msg
  have hne : (pkcs7Pad msg).length ≠ 0 := by omega
  obtain ⟨j, hj⟩ : ∃ j, k = j + 1 := ⟨k - 1, by omega⟩
  have hrep : List.replicate k k = List.replicate j k ++ [k] := by
    rw [hj]
    exact List.replicate_succ' j (j + 1)
  have hlast : (pkcs7Pad msg).getLastD 0 = k := by
    rw [pkcs7Pad]
    show (msg ++ List.replicate k k).getLastD 0 = k
    rw [hrep, ← List.append_assoc]
    exact List.getLastD_concat _ _ _
  have hdrop : (pkcs7Pad msg).drop ((pkcs7Pad msg).length - k) =
      List.replicate k k := by
    rw [hlen]
    have : msg.length + k - k = msg.length := by omega
    rw [this, pkcs7Pad]
    show (msg ++ List.replicate k k).drop msg.length = List.replicate k k
    simp
  have htake : (pkcs7Pad msg).take ((pkcs7Pad msg).length - k) = msg := by
    rw [hlen]
    have : msg.length + k - k = msg.length := by omega
    rw [this, pkcs7Pad]
    show (msg ++ List.replicate k k).take msg.length = msg
    simp
  rw [pkcs7Unpad, if_pos ⟨hmod, hne⟩]
  simp only [hlast, hdrop, htake]
  rw [if_pos]
  constructor
  · exact hk1
  constructor
  · exact hk16
  · simp [List.all_eq_true, List.mem_replicate]

theorem length_cbcEncryptBlocks (E : List Nat → List Nat)
    (hE : ∀ b, b.length = 16 → (E b).length = 16) :
    ∀ (n : Nat) (prev data : List Nat), prev.length = 16 →
      data.length = 16 * n → (cbcEncryptBlocks E n prev data).length = 16 * n := by
  intro n
  induction n with
  | zero => intro prev data _ _; rfl
  | succ n ih =>
    intro prev data hprev hdata
    have htake : (data.take 16).length = 16 := by
      rw [List.length_take]; omega
    have hxor : (xorBytes prev (data.take 16)).length = 16 := by
      rw [length_xorBytes, htake, hprev]
      simp
    have hc : (E (xorBytes prev (data.take 16))).length = 16 := hE _ hxor
    have hdrop : (data.drop 16).length = 16 * n := by
      rw [List.length_drop]; omega
    rw [cbcEncryptBlocks]
    show (E (xorBytes prev (data.take 16)) ++
      cbcEncryptBlocks E n (E (xorBytes prev (data.take 16))) (data.drop 16)).length
      = 16 * (n + 1)
    rw [List.length_append, hc, ih _ _ hc hdrop]
    ring

theorem cbcDecryptBlocks_cbcEncryptBlocks (E D : List Nat → List Nat)
    (hED : ∀ b, b.length = 16 → D (E b) = b ∧ (E b).length = 16) :
    ∀ (n : Nat) (prev data : List Nat), prev.length = 16 →
      data.length = 16 * n →
      cbcDecryptBlocks D n prev (cbcEncryptBlocks E n prev data) = data := by
  intro n
  induction n with
  | zero =>
    intro prev data _ hdata
    have : data = [] := List.length_eq_zero.mp (by omega)
    simp [this, cbcEncryptBlocks, cbcDecryptBlocks]
  | succ n ih =>
    intro prev data hprev hdata
    have htake : (data.take 16).length = 16 := by
      rw [List.length_take]; omega
    have hxor : (xorBytes prev (data.take 16)).length = 16 := by
      rw [length_xorBytes, htake, hprev]
      simp
    obtain ⟨hDE, hElen⟩ := hED _ hxor
    have hdrop : (data.drop 16).length = 16 * n := by
      rw [List.length_drop]; omega
    rw [cbcEncryptBlocks, cbcDecryptBlocks]
    set c := E (xorBytes prev (data.take 16)) with hc
    have htl : (c ++ cbcEncryptBlocks E n c (data.drop 16)).take 16 = c := by
      rw [List.take_left' hElen]
    have hdl : (c ++ cbcEncryptBlocks E n c (data.drop 16)).drop 16 =
        cbcEncryptBlocks E n c (data.drop 16) := by
      rw [List.drop_left' hElen]
    show xorBytes prev (D ((c ++ cbcEncryptBlocks E n c (data.drop 16)).take 16))
        ++ cbcDecryptBlocks D n ((c ++ cbcEncryptBlocks E n c (data.drop 16)).take 16)
          ((c ++ cbcEncryptBlocks E n c (data.drop 16)).drop 16) = data
    rw [htl, hdl, hc, hDE, xorBytes_cancel prev (data.take 16) (by omega),
      ih c (data.drop 16) hElen hdrop]
    exact List.take_append_drop 16 data

theorem testPrims_sha256Spec : Sha256Spec testPrims := by
  intro b
  refine ⟨rfl, ?_⟩
  intro x hx
  simp only [testPrims, List.mem_replicate] at hx
  omega

theorem testPrims_aesBlockSpec : AesBlockSpec testPrims :=
  fun _ b hb => ⟨rfl, hb⟩

theorem seqEdgePrims_sha256Spec : Sha256Spec seqEdgePrims := by
  intro b
  refine ⟨rfl, ?_⟩
  intro x hx
  simp only [seqEdgePrims, List.mem_append, List.mem_replicate] at hx
  rcases hx with h | h
  · omega
  · fin_cases h <;> omega

theorem seqEdgePrims_aesBlockSpec : AesBlockSpec seqEdgePrims :=
  fun _ b hb => ⟨rfl, hb⟩

theorem beBytesToNat_lt (l : List Nat) (hl : ∀ x ∈ l, x < 256) :
    beBytesToNat l < 256 ^ l.length := by
  induction l using List.reverseRecOn with
  | nil => simp [beBytesToNat]
  | append_singleton xs b ih =>
    rw [beBytesToNat_append_singleton]
    have hb : b < 256 := hl b (by simp)
    have hxs : beBytesToNat xs < 256 ^ xs.length :=
      ih (fun x hx => hl x (by simp [hx]))
    rw [List.length_append, List.length_singleton, pow_succ]
    omega

theorem intFromBeSignedBytes_range (l : List Nat) (hl : ∀ x ∈ l, x < 256)
    (h4 : l.length = 4) :
    -(2 ^ 31) ≤ intFromBeSignedBytes l ∧ intFromBeSignedBytes l < 2 ^ 31 := by
  have hu : beBytesToNat l < 256 ^ 4 := h4 ▸ beBytesToNat_lt l hl
  rw [intFromBeSignedBytes, h4]
  norm_num at hu ⊢
  split <;> omega

theorem build_seq_range (P : CryptoPrims) (hsha : Sha256Spec P)
    (ls rs ah : List Nat) :
    -(2 ^ 31) ≤ (KlapEncryptionSession.build P ls rs ah).seq ∧
    (KlapEncryptionSession.build P ls rs ah).seq < 2 ^ 31 := by
  obtain ⟨hlen, hbytes⟩ := hsha ([105, 118] ++ ls ++ rs ++ ah)
  have hdlen : ((P.sha256 ([105, 118] ++ ls ++ rs ++ ah)).drop
      ((P.sha256 ([105, 118] ++ ls ++ rs ++ ah)).length - 4)).length = 4 := by
    rw [List.length_drop]
    omega
  have hdbytes : ∀ x ∈ (P.sha256 ([105, 118] ++ ls ++ rs ++ ah)).drop
      ((P.sha256 ([105, 118] ++ ls ++ rs ++ ah)).length - 4), x < 256 :=
    fun x hx => hbytes x (List.drop_subset _ _ hx)
  have h := intFromBeSignedBytes_range _ hdbytes hdlen
  simpa [KlapEncryptionSession.build, KlapEncryptionSession.ivDerive] using h

theorem build_iv_length (P : CryptoPrims) (hsha : Sha256Spec P)
    (ls rs ah : List Nat) :
    (KlapEncryptionSession.build P ls rs ah).iv.length = 12 := by
  have hlen := (hsha ([105, 118] ++ ls ++ rs ++ ah)).1
  simp only [KlapEncryptionSession.build, KlapEncryptionSession.ivDerive]
  rw [List.length_take, hlen]
  norm_num

theorem encrypt_eq_of_seq_in_range (P : CryptoPrims)
    (s : KlapEncryptionSession) (msg : List Nat)
    (hlo : -(2 ^ 31) ≤ s.seq + 1) (hhi : s.seq + 1 < 2 ^ 31) :
    KlapEncryptionSession.encrypt P s msg =
      (some
        (P.sha256 (s.sig ++ natToBeBytes 4 ((s.seq + 1) % 2 ^ 32).toNat ++
            cbcEncryptBlocks (P.aesEncBlock s.key) ((pkcs7Pad msg).length / 16)
              (s.iv ++ natToBeBytes 4 ((s.seq + 1) % 2 ^ 32).toNat)
              (pkcs7Pad msg)) ++
          cbcEncryptBlocks (P.aesEncBlock s.key) ((pkcs7Pad msg).length / 16)
            (s.iv ++ natToBeBytes 4 ((s.seq + 1) % 2 ^ 32).toNat)
            (pkcs7Pad msg),
         s.seq + 1),
       { s with seq := s.seq + 1 }) := by
  have hsq : intToBeSignedBytes 4 (s.seq + 1) =
      some (natToBeBytes 4 ((s.seq + 1) % 2 ^ 32).toNat) :=
    intToBeSignedBytes_4_eq _ hlo hhi
  have henc : aesCbcEncrypt P s.key
      (s.iv ++ natToBeBytes 4 ((s.seq + 1) % 2 ^ 32).toNat) (pkcs7Pad msg) =
      some (cbcEncryptBlocks (P.aesEncBlock s.key) ((pkcs7Pad msg).length / 16)
        (s.iv ++ natToBeBytes 4 ((s.seq + 1) % 2 ^ 32).toNat)
        (pkcs7Pad msg)) := by
    rw [aesCbcEncrypt, if_pos (length_pkcs7Pad_mod msg)]
  rw [KlapEncryptionSession.encrypt]
  simp only [hsq, henc]

theorem encrypt_eq_of_seq_overflow (P : CryptoPrims)
    (s : KlapEncryptionSession) (msg : List Nat) (h : s.seq + 1 = 2 ^ 31) :
    KlapEncryptionSession.encrypt P s msg =
      (none, { s with seq := s.seq + 1 }) := by
  have hsq : intToBeSignedBytes 4 (s.seq + 1) = none := by
    rw [intToBeSignedBytes, if_neg]
    intro hcon
    rw [h] at hcon
    norm_num at hcon
  rw [KlapEncryptionSession.encrypt]
  simp only [hsq]

theorem decrypt_sig_ct (P : CryptoPrims) (hsha : Sha256Spec P)
    (haes : AesBlockSpec P) (s : KlapEncryptionSession)
    (hiv : s.iv.length = 12) (hlo : -(2 ^ 31) ≤ s.seq) (hhi : s.seq < 2 ^ 31)
    (msg sigBlock : List Nat) (hsigLen : sigBlock.length = 32) :
    KlapEncryptionSession.decrypt P s (sigBlock ++
      cbcEncryptBlocks (P.aesEncBlock s.key) ((pkcs7Pad msg).length / 16)
        (s.iv ++ natToBeBytes 4 (s.seq % 2 ^ 32).toNat) (pkcs7Pad msg)) =
      utf8Decode msg := by
  have hsq : intToBeSignedBytes 4 s.seq =
      some (natToBeBytes 4 (s.seq % 2 ^ 32).toNat) :=
    intToBeSignedBytes_4_eq _ hlo hhi
  have hsqlen : (natToBeBytes 4 (s.seq % 2 ^ 32).toNat).length = 4 :=
    length_natToBeBytes _ _
  have hivlen : (s.iv ++ natToBeBytes 4 (s.seq % 2 ^ 32).toNat).length = 16 := by
    rw [List.length_append, hiv, hsqlen]
  have hpmod : (pkcs7Pad msg).length % 16 = 0 := length_pkcs7Pad_mod msg
  have hpn : (pkcs7Pad msg).length = 16 * ((pkcs7Pad msg).length / 16) := by
    omega
  have hE : ∀ b : List Nat, b.length = 16 →
      (P.aesEncBlock s.key b).length = 16 := fun b hb => (haes s.key b hb).2
  have hctlen : (cbcEncryptBlocks (P.aesEncBlock s.key)
      ((pkcs7Pad msg).length / 16)
      (s.iv ++ natToBeBytes 4 (s.seq % 2 ^ 32).toNat) (pkcs7Pad msg)).length =
      16 * ((pkcs7Pad msg).length / 16) :=
    length_cbcEncryptBlocks _ hE _ _ _ hivlen hpn
  have hivseq : KlapEncryptionSession.ivSeq s =
      some (s.iv ++ natToBeBytes 4 (s.seq % 2 ^ 32).toNat) := by
    rw [KlapEncryptionSession.ivSeq, hsq]
    rfl
  have hdrop : (sigBlock ++
      cbcEncryptBlocks (P.aesEncBlock s.key) ((pkcs7Pad msg).length / 16)
        (s.iv ++ natToBeBytes 4 (s.seq % 2 ^ 32).toNat)
        (pkcs7Pad msg)).drop 32 =
      cbcEncryptBlocks (P.aesEncBlock s.key) ((pkcs7Pad msg).length / 16)
        (s.iv ++ natToBeBytes 4 (s.seq % 2 ^ 32).toNat) (pkcs7Pad msg) :=
    List.drop_left' hsigLen
  have hdec : aesCbcDecrypt P s.key
      (s.iv ++ natToBeBytes 4 (s.seq % 2 ^ 32).toNat)
      (cbcEncryptBlocks (P.aesEncBlock s.key) ((pkcs7Pad msg).length / 16)
        (s.iv ++ natToBeBytes 4 (s.seq % 2 ^ 32).toNat) (pkcs7Pad msg)) =
      some (pkcs7Pad msg) := by
    rw [aesCbcDecrypt, if_pos (by omega)]
    have hn : (cbcEncryptBlocks (P.aesEncBlock s.key)
        ((pkcs7Pad msg).length / 16)
        (s.iv ++ natToBeBytes 4 (s.seq % 2 ^ 32).toNat)
        (pkcs7Pad msg)).length / 16 = (pkcs7Pad msg).length / 16 := by
      omega
    rw [hn, cbcDecryptBlocks_cbcEncryptBlocks _ _ (fun b hb => haes s.key b hb)
      _ _ _ hivlen hpn]
  rw [KlapEncryptionSession.decrypt]
  simp only [hivseq, hdrop, hdec, pkcs7Unpad_pkcs7Pad]

theorem klap_roundtrip_core (P : CryptoPrims) (hsha : Sha256Spec P)
    (haes : AesBlockSpec P) (s : KlapEncryptionSession)
    (hiv : s.iv.length = 12) (hlo : -(2 ^ 31) ≤ s.seq + 1)
    (hhi : s.seq + 1 < 2 ^ 31) (p : List Nat) (hp : ∀ c ∈ p, IsScalar c) :
    ∃ blob,
      (KlapEncryptionSession.encrypt P s (utf8Encode p)).1 =
        some (blob, s.seq + 1) ∧
      KlapEncryptionSession.decrypt P
        (KlapEncryptionSession.encrypt P s (utf8Encode p)).2 blob = some p := by
  have hmain := encrypt_eq_of_seq_in_range P s (utf8Encode p) hlo hhi
  refine ⟨P.sha256 (s.sig ++ natToBeBytes 4 ((s.seq + 1) % 2 ^ 32).toNat ++
      cbcEncryptBlocks (P.aesEncBlock s.key)
        ((pkcs7Pad (utf8Encode p)).length / 16)
        (s.iv ++ natToBeBytes 4 ((s.seq + 1) % 2 ^ 32).toNat)
        (pkcs7Pad (utf8Encode p))) ++
      cbcEncryptBlocks (P.aesEncBlock s.key)
        ((pkcs7Pad (utf8Encode p)).length / 16)
        (s.iv ++ natToBeBytes 4 ((s.seq + 1) % 2 ^ 32).toNat)
        (pkcs7Pad (utf8Encode p)), ?_, ?_⟩
  · rw [hmain]
  · rw [hmain]
    have h2 := decrypt_sig_ct P hsha haes { s with seq := s.seq + 1 }
      hiv hlo hhi (utf8Encode p)
      (P.sha256 (s.sig ++ natToBeBytes 4 ((s.seq + 1) % 2 ^ 32).toNat ++
        cbcEncryptBlocks (P.aesEncBlock s.key)
          ((pkcs7Pad (utf8Encode p)).length / 16)
          (s.iv ++ natToBeBytes 4 ((s.seq + 1) % 2 ^ 32).toNat)
          (pkcs7Pad (utf8Encode p))))
      ((hsha _).1)
    dsimp only at h2
    rw [utf8Decode_utf8Encode p hp] at h2
    exact h2

/-- C1 (amended): for every crypto instantiation satisfying the published
SHA-256 and AES facts, every pair of seeds, every auth hash (whose derived
initial sequence is not the maximal signed 32-bit value, where the
increment inside encrypt would overflow) and every plaintext string p, a
KlapEncryptionSession built from them satisfies the round-trip law:
encrypting the UTF-8 bytes of p and then calling decrypt on the same
session (so decrypt uses the seq produced by the matching encrypt) returns
p; decrypt strips the PKCS#7 padding and returns the UTF-8 DECODING of the
raw plaintext bytes, not the bytes themselves. -/
theorem c1_klap_session_roundtrip (P : CryptoPrims) (hsha : Sha256Spec P)
    (haes : AesBlockSpec P) (ls rs ah p : List Nat)
    (hp : ∀ c ∈ p, IsScalar c)
    (hseq : (KlapEncryptionSession.build P ls rs ah).seq + 1 < 2 ^ 31) :
    ∃ blob,
      (KlapEncryptionSession.encrypt P
          (KlapEncryptionSession.build P ls rs ah) (utf8Encode p)).1 =
        some (blob, (KlapEncryptionSession.build P ls rs ah).seq + 1) ∧
      KlapEncryptionSession.decrypt P
        (KlapEncryptionSession.encrypt P
          (KlapEncryptionSession.build P ls rs ah) (utf8Encode p)).2 blob =
        some p := by
  refine klap_roundtrip_core P hsha haes _ (build_iv_length P hsha ls rs ah)
    ?_ hseq p hp
  have := (build_seq_range P hsha ls rs ah).1
  omega

/-- C1 witness: the round-trip theorem evaluated at the test primitives,
explicit seeds and the two-character plaintext "hi". -/
theorem c1_klap_session_roundtrip_witness :
    ∃ blob,
      (KlapEncryptionSession.encrypt testPrims
          (KlapEncryptionSession.build testPrims (List.replicate 16 1)
            (List.replicate 16 2) (List.replicate 16 3))
          (utf8Encode [104, 105])).1 =
        some (blob, (KlapEncryptionSession.build testPrims
          (List.replicate 16 1) (List.replicate 16 2)
          (List.replicate 16 3)).seq + 1) ∧
      KlapEncryptionSession.decrypt testPrims
        (KlapEncryptionSession.encrypt testPrims
          (KlapEncryptionSession.build testPrims (List.replicate 16 1)
            (List.replicate 16 2) (List.replicate 16 3))
          (utf8Encode [104, 105])).2 blob = some [104, 105] :=
  c1_klap_session_roundtrip testPrims testPrims_sha256Spec
    testPrims_aesBlockSpec (List.replicate 16 1) (List.replicate 16 2)
    (List.replicate 16 3) [104, 105] (by decide) (by decide)

/-- C1 counterexample: at the byte plaintext [0xFF], encrypt succeeds but
decrypt on the same session returns none (Python: UnicodeDecodeError from
the final .decode()), not the raw bytes [0xFF] the claim promises: the
claim as stated (decrypt returns the raw plaintext bytes) is false. -/
theorem c1_klap_session_roundtrip_counterexample :
    ((KlapEncryptionSession.encrypt testPrims klapTestSession [255]).1.map
      Prod.fst) =
      some (List.replicate 32 0 ++ ([255] ++ List.replicate 14 15 ++ [14])) ∧
    KlapEncryptionSession.decrypt testPrims
      (KlapEncryptionSession.encrypt testPrims klapTestSession [255]).2
      (List.replicate 32 0 ++ ([255] ++ List.replicate 14 15 ++ [14])) =
      none := by
  decide

/-- C3 (amended): the session counter is a Python int, incremented without
bound; serialising it via to_bytes(4, big, signed=True) succeeds exactly
on the signed 32-bit range, where it produces the two's-complement
big-endian form (4 bytes whose signed big-endian reading gives back the
counter); but when an encrypt increments the counter past 2^31 - 1 the
serialisation raises OverflowError (none) instead of wrapping to a
negative value, with the counter left at 2^31. -/
theorem c3_seq_serialisation (P : CryptoPrims) (s : KlapEncryptionSession)
    (msg : List Nat) :
    ((-(2 ^ 31) ≤ s.seq + 1 ∧ s.seq + 1 < 2 ^ 31) →
      (∃ blob, (KlapEncryptionSession.encrypt P s msg).1 =
        some (blob, s.seq + 1)) ∧
      ∀ b, intToBeSignedBytes 4 (s.seq + 1) = some b →
        b.length = 4 ∧ intFromBeSignedBytes b = s.seq + 1) ∧
    (s.seq + 1 = 2 ^ 31 →
      (KlapEncryptionSession.encrypt P s msg).1 = none ∧
      (KlapEncryptionSession.encrypt P s msg).2.seq = s.seq + 1) := by
  constructor
  · rintro ⟨hlo, hhi⟩
    constructor
    · exact ⟨_, by rw [encrypt_eq_of_seq_in_range P s msg hlo hhi]⟩
    · intro b hb
      obtain ⟨hval, hlen⟩ :=
        intFromBeSignedBytes_intToBeSignedBytes _ hlo hhi b hb
      exact ⟨hlen, hval⟩
  · intro h
    rw [encrypt_eq_of_seq_overflow P s msg h]
    exact ⟨rfl, rfl⟩

/-- C3 witness: the serialisation theorem evaluated at the test session
(initial seq 0) and a one-byte message. -/
theorem c3_seq_serialisation_witness :
    (∃ blob, (KlapEncryptionSession.encrypt testPrims klapTestSession
      [97]).1 = some (blob, klapTestSession.seq + 1)) ∧
    ∀ b, intToBeSignedBytes 4 (klapTestSession.seq + 1) = some b →
      b.length = 4 ∧ intFromBeSignedBytes b = klapTestSession.seq + 1 :=
  (c3_seq_serialisation testPrims klapTestSession [97]).1 (by decide)

/-- C3 counterexample: a session whose derived initial sequence is
2^31 - 1 (reachable: the IV digest ends in 7f ff ff ff); the next encrypt
does NOT wrap into a negative value with its 4-byte form still produced -
it returns no blob at all (Python raises OverflowError) and leaves the
counter at 2^31. -/
theorem c3_seq_serialisation_counterexample :
    klapSeqEdgeSession.seq = 2 ^ 31 - 1 ∧
    (KlapEncryptionSession.encrypt seqEdgePrims klapSeqEdgeSession
      [97]).1 = none ∧
    (KlapEncryptionSession.encrypt seqEdgePrims klapSeqEdgeSession
      [97]).2.seq = 2 ^ 31 := by
  decide

/-- C4: the result of decrypt depends only on the input from byte 32
onward; the 32-byte signature prefix is discarded without verification
(two blobs agreeing past the first 32 bytes decrypt identically on
sessions in the same state). -/
theorem c4_decrypt_ignores_first_32 (P : CryptoPrims)
    (s : KlapEncryptionSession) (b1 b2 : List Nat)
    (h : b1.drop 32 = b2.drop 32) :
    KlapEncryptionSession.decrypt P s b1 =
      KlapEncryptionSession.decrypt P s b2 := by
  simp only [KlapEncryptionSession.decrypt, h]

/-- C4 witness: two blobs with different 32-byte prefixes and the same
remainder decrypt identically on the test session. -/
theorem c4_decrypt_ignores_first_32_witness :
    (List.replicate 32 7 ++ [1, 2, 3]).drop 32 =
      (List.replicate 32 9 ++ [1, 2, 3]).drop 32 ∧
    KlapEncryptionSession.decrypt testPrims klapTestSession
      (List.replicate 32 7 ++ [1, 2, 3]) =
    KlapEncryptionSession.decrypt testPrims klapTestSession
      (List.replicate 32 9 ++ [1, 2, 3]) :=
  ⟨by decide, c4_decrypt_ignores_first_32 testPrims klapTestSession _ _
    (by decide)⟩

/-- C6: the handshake challenge hashes are computed per variant exactly
as: v1 H1 = sha256(local_seed + auth_hash) with remote_seed not mixed in
(the result is independent of the remote seed argument), v1 H2 =
sha256(remote_seed + auth_hash), v2 H1 = sha256(local_seed + remote_seed +
auth_hash), v2 H2 = sha256(remote_seed + local_seed + auth_hash). -/
theorem c6_handshake_hash_formulas (P : CryptoPrims)
    (ls rs rs2 ah : List Nat) :
    handshake1_seed_auth_hash P ls rs ah = P.sha256 (ls ++ ah) ∧
    handshake1_seed_auth_hash P ls rs ah =
      handshake1_seed_auth_hash P ls rs2 ah ∧
    handshake2_seed_auth_hash P ls rs ah = P.sha256 (rs ++ ah) ∧
    v2_handshake1_seed_auth_hash P ls rs ah = P.sha256 (ls ++ rs ++ ah) ∧
    v2_handshake2_seed_auth_hash P ls rs ah = P.sha256 (rs ++ ls ++ ah) :=
  ⟨rfl, rfl, rfl, rfl, rfl⟩

/-- C7: for every text t (whose UTF-8 form fits the 4-byte length field),
XOR-transport encrypt(t) begins with the 4-byte big-endian length of t's
UTF-8 encoding; decrypt applied to encrypt(t) with the first 4 bytes
removed returns t; and the payload obeys the auto-key law: byte 0 is
p0 XOR 0xAB and byte i is p_i XOR the previous ciphertext byte. -/
theorem c7_xor_roundtrip (t : List Nat) (ht : ∀ c ∈ t, IsScalar c)
    (hlen : (utf8Encode t).length < 2 ^ 32) :
    ∃ frame, TPLinkSmartHomeProtocol.encrypt t = some frame ∧
      frame.take 4 = natToBeBytes 4 (utf8Encode t).length ∧
      TPLinkSmartHomeProtocol.decrypt (frame.drop 4) = some t ∧
      ∀ i, i < (utf8Encode t).length →
        (frame.drop 4).getD i 0 =
          (if i = 0 then 171 else (frame.drop 4).getD (i - 1) 0) ^^^
            (utf8Encode t).getD i 0 := by
  have hfr : TPLinkSmartHomeProtocol.encrypt t =
      some (natToBeBytes 4 (utf8Encode t).length ++
        TPLinkSmartHomeProtocol.xorPayload 171 (utf8Encode t)) := by
    simp only [TPLinkSmartHomeProtocol.encrypt,
      TPLinkSmartHomeProtocol.INITIALIZATION_VECTOR]
    rw [if_pos hlen]
  have h4 : (natToBeBytes 4 (utf8Encode t).length).length = 4 :=
    length_natToBeBytes _ _
  refine ⟨_, hfr, ?_, ?_, ?_⟩
  · rw [List.take_left' h4]
  · rw [List.drop_left' h4]
    simp only [TPLinkSmartHomeProtocol.decrypt,
      TPLinkSmartHomeProtocol.INITIALIZATION_VECTOR,
      TPLinkSmartHomeProtocol.xorEncryptedPayload_xorPayload]
    exact utf8Decode_utf8Encode t ht
  · intro i hi
    rw [List.drop_left' h4]
    exact TPLinkSmartHomeProtocol.xorPayload_getD (utf8Encode t) 171 i hi

/-- C7 witness: the XOR theorem evaluated at the concrete request text
with JSON braces around a single key. -/
theorem c7_xor_roundtrip_witness :
    ∃ frame,
      TPLinkSmartHomeProtocol.encrypt [123, 34, 97, 34, 58, 49, 125] =
        some frame ∧
      frame.take 4 = natToBeBytes 4
        (utf8Encode [123, 34, 97, 34, 58, 49, 125]).length ∧
      TPLinkSmartHomeProtocol.decrypt (frame.drop 4) =
        some [123, 34, 97, 34, 58, 49, 125] ∧
      ∀ i, i < (utf8Encode [123, 34, 97, 34, 58, 49, 125]).length →
        (frame.drop 4).getD i 0 =
          (if i = 0 then 171 else (frame.drop 4).getD (i - 1) 0) ^^^
            (utf8Encode [123, 34, 97, 34, 58, 49, 125]).getD i 0 :=
  c7_xor_roundtrip [123, 34, 97, 34, 58, 49, 125] (by decide) (by decide)

/-- C2: on an HTTP 200 handshake1 reply, the candidate auth hashes are
compared against the server hash in exactly this order: the configured
credentials, then the kasa-setup credentials, then blank credentials
(skipped when the configured credentials are already blank); the first
match wins, later candidates are never consulted, and when no candidate
matches the call raises AuthenticationError.  The two memo-consistency
hypotheses say the cached hash fields are either unset or hold the value
the code would cache there, which holds in every reachable state. -/
theorem c2_handshake1_credential_ladder (P : CryptoPrims) (V : KlapVariant)
    (st : KlapTransportState) (local_seed responseData : List Nat)
    (hkm : st.kasaSetupAuthHash = none ∨
      st.kasaSetupAuthHash = some (V.generateAuthHash P kasaSetupCredentials))
    (hbm : st.blankAuthHash = none ∨
      st.blankAuthHash = some (V.generateAuthHash P blankCredentials)) :
    (V.handshake1SeedAuthHash P local_seed (responseData.take 16)
        st.localAuthHash = responseData.drop 16 →
      (KlapTransport.performHandshake1 P V st local_seed 200
          responseData).1 =
        .ok (local_seed, responseData.take 16, st.localAuthHash)) ∧
    (V.handshake1SeedAuthHash P local_seed (responseData.take 16)
        st.localAuthHash ≠ responseData.drop 16 →
      V.handshake1SeedAuthHash P local_seed (responseData.take 16)
          (V.generateAuthHash P kasaSetupCredentials) = responseData.drop 16 →
      (KlapTransport.performHandshake1 P V st local_seed 200
          responseData).1 =
        .ok (local_seed, responseData.take 16,
          V.generateAuthHash P kasaSetupCredentials)) ∧
    (V.handshake1SeedAuthHash P local_seed (responseData.take 16)
        st.localAuthHash ≠ responseData.drop 16 →
      V.handshake1SeedAuthHash P local_seed (responseData.take 16)
          (V.generateAuthHash P kasaSetupCredentials) ≠ responseData.drop 16 →
      st.credentials ≠ blankCredentials →
      V.handshake1SeedAuthHash P local_seed (responseData.take 16)
          (V.generateAuthHash P blankCredentials) = responseData.drop 16 →
      (KlapTransport.performHandshake1 P V st local_seed 200
          responseData).1 =
        .ok (local_seed, responseData.take 16,
          V.generateAuthHash P blankCredentials)) ∧
    (V.handshake1SeedAuthHash P local_seed (responseData.take 16)
        st.localAuthHash ≠ responseData.drop 16 →
      V.handshake1SeedAuthHash P local_seed (responseData.take 16)
          (V.generateAuthHash P kasaSetupCredentials) ≠ responseData.drop 16 →
      (st.credentials = blankCredentials ∨
        V.handshake1SeedAuthHash P local_seed (responseData.take 16)
          (V.generateAuthHash P blankCredentials) ≠ responseData.drop 16) →
      (KlapTransport.performHandshake1 P V st local_seed 200
          responseData).1 = .error .authentication) := by
  have hkasa : (match st.kasaSetupAuthHash with
      | some h => h
      | none => V.generateAuthHash P kasaSetupCredentials) =
      V.generateAuthHash P kasaSetupCredentials := by
    rcases hkm with h | h <;> rw [h]
  have hblank : (match st.blankAuthHash with
      | some h => h
      | none => V.generateAuthHash P blankCredentials) =
      V.generateAuthHash P blankCredentials := by
    rcases hbm with h | h <;> rw [h]
  refine ⟨?_, ?_, ?_, ?_⟩
  · intro h1
    simp [KlapTransport.performHandshake1, h1]
  · intro h1 h2
    simp [KlapTransport.performHandshake1, h1, h2, hkasa]
  · intro h1 h2 hc h3
    simp [KlapTransport.performHandshake1, h1, h2, h3, hc, hkasa, hblank]
  · intro h1 h2 hd
    rcases hd with hc | h3
    · simp [KlapTransport.performHandshake1, h1, h2, hc, hkasa]
    · by_cases hc : st.credentials = blankCredentials
      · simp [KlapTransport.performHandshake1, h1, h2, hc, hkasa]
      · simp [KlapTransport.performHandshake1, h1, h2, h3, hc, hkasa, hblank]

/-- C2 witness: the ladder theorem evaluated at the test primitives, the
v1 strategy and a fresh transport whose configured (blank) credentials
match the server hash. -/
theorem c2_handshake1_credential_ladder_witness :
    v1Variant.handshake1SeedAuthHash testPrims (List.replicate 16 5)
        ((List.replicate 16 6 ++ List.replicate 32 0).take 16)
        (KlapTransport.create testPrims v1Variant none).localAuthHash =
      (List.replicate 16 6 ++ List.replicate 32 0).drop 16 ∧
    (KlapTransport.performHandshake1 testPrims v1Variant
        (KlapTransport.create testPrims v1Variant none)
        (List.replicate 16 5) 200
        (List.replicate 16 6 ++ List.replicate 32 0)).1 =
      .ok (List.replicate 16 5,
        (List.replicate 16 6 ++ List.replicate 32 0).take 16,
        (KlapTransport.create testPrims v1Variant none).localAuthHash) :=
  ⟨by decide,
   (c2_handshake1_credential_ladder testPrims v1Variant
      (KlapTransport.create testPrims v1Variant none)
      (List.replicate 16 5) (List.replicate 16 6 ++ List.replicate 32 0)
      (Or.inl rfl) (Or.inl rfl)).1 (by decide)⟩

/-- C5: a send that gets HTTP 403 after a completed handshake (the
needs-handshake guard passed and the encryption succeeded) raises
AuthenticationError and clears _handshake_done, so needs_handshake is
true at every later time. -/
theorem c5_send_403_forces_rehandshake (P : CryptoPrims)
    (st : KlapTransportState) (now : Int) (request responseData : List Nat)
    (es : KlapEncryptionSession)
    (hnh : KlapTransport.needsHandshake st now = false)
    (hes : st.encryptionSession = some es)
    (henc : ((KlapEncryptionSession.encrypt P es
      (utf8Encode request)).1).isSome) :
    (KlapTransport.send P st now request 403 responseData).1 =
      .error .authentication ∧
    ∀ t : Int, KlapTransport.needsHandshake
      (KlapTransport.send P st now request 403 responseData).2 t = true := by
  obtain ⟨ps, hps⟩ := Option.isSome_iff_exists.mp henc
  rcases hE : KlapEncryptionSession.encrypt P es (utf8Encode request)
    with ⟨res, es2⟩
  rw [hE] at hps
  simp only at hps
  subst hps
  constructor
  · simp [KlapTransport.send, hnh, hes, hE]
  · intro t
    have hnh2 := hnh
    simp only [KlapTransport.needsHandshake, Bool.or_eq_false_iff,
      Bool.not_eq_false'] at hnh2
    simp [KlapTransport.send, hnh, hes, hE, KlapTransport.needsHandshake,
      hnh2.1, hnh2.2]

/-- C5 witness: the 403 theorem evaluated on a transport fresh from a
completed handshake, at time 0 with a one-byte request. -/
theorem c5_send_403_forces_rehandshake_witness :
    (KlapTransport.send testPrims readyTransport 0 [97] 403 []).1 =
      .error .authentication ∧
    ∀ t : Int, KlapTransport.needsHandshake
      (KlapTransport.send testPrims readyTransport 0 [97] 403 []).2 t =
        true :=
  c5_send_403_forces_rehandshake testPrims readyTransport 0 [97] []
    klapTestSession (by decide) rfl (by decide)

theorem performHandshake1_state_fields (P : CryptoPrims) (V : KlapVariant)
    (st : KlapTransportState) (ls : List Nat) (status : Nat)
    (data : List Nat) :
    (KlapTransport.performHandshake1 P V st ls status
        data).2.handshakeDone = st.handshakeDone ∧
    (KlapTransport.performHandshake1 P V st ls status
        data).2.encryptionSession = st.encryptionSession ∧
    (KlapTransport.performHandshake1 P V st ls status
        data).2.sessionExpireAt = st.sessionExpireAt ∧
    (KlapTransport.performHandshake1 P V st ls status
        data).2.sessionCookie = st.sessionCookie := by
  rw [KlapTransport.performHandshake1]
  refine ⟨?_, ?_, ?_, ?_⟩ <;> (dsimp only; repeat' split) <;> rfl

/-- C9: the transport invariant (handshake_done implies an encryption
session and an expiry are present) is established by construction and
preserved by perform_handshake, send and close; consequently a send whose
needs-handshake guard passes always finds an encryption session. -/
theorem c9_transport_invariant (P : CryptoPrims) (V : KlapVariant) :
    (∀ creds, KlapInv (KlapTransport.create P V creds)) ∧
    (∀ st now ls h1s h1d cookie h2s, KlapInv st →
      KlapInv (KlapTransport.performHandshake P V st now ls h1s h1d cookie
        h2s).2) ∧
    (∀ st now req rs rd, KlapInv st →
      KlapInv (KlapTransport.send P st now req rs rd).2) ∧
    (∀ st, KlapInv st → KlapInv (KlapTransport.close st)) ∧
    (∀ st now, KlapInv st → KlapTransport.needsHandshake st now = false →
      st.encryptionSession.isSome) := by
  refine ⟨?_, ?_, ?_, ?_, ?_⟩
  · intro creds
    intro hdone
    simp [KlapTransport.create] at hdone
  · intro st now ls h1s h1d cookie h2s _
    rw [KlapTransport.performHandshake]
    rcases hh : KlapTransport.performHandshake1 P V
      { st with handshakeDone := false, sessionExpireAt := none, sessionCookie := none }
      ls h1s h1d with ⟨r1, st1⟩
    have hst1 : st1.handshakeDone = false := by
      have := (performHandshake1_state_fields P V
        { st with handshakeDone := false, sessionExpireAt := none, sessionCookie := none }
        ls h1s h1d).1
      rw [hh] at this
      exact this
    cases r1 with
    | error e =>
      simp only [hh]
      intro hdone
      rw [hst1] at hdone
      simp at hdone
    | ok v =>
      obtain ⟨ls2, rs2, ah2⟩ := v
      simp only [hh]
      rw [KlapTransport.performHandshake2]
      by_cases h2 : h2s ≠ 200
      · rw [if_pos h2]
        intro hdone
        simp only at hdone
        rw [hst1] at hdone
        simp at hdone
      · rw [if_neg h2]
        intro _
        exact ⟨rfl, rfl⟩
  · intro st now req rs rd hInv
    rw [KlapTransport.send]
    by_cases hnh : KlapTransport.needsHandshake st now
    · rw [if_pos hnh]
      exact hInv
    · rw [if_neg hnh]
      cases hes : st.encryptionSession with
      | none => exact hInv
      | some es =>
        rcases hE : KlapEncryptionSession.encrypt P es (utf8Encode req)
          with ⟨r, es2⟩
        simp only [hE]
        cases r with
        | none =>
          intro hdone
          obtain ⟨_, hexp⟩ := hInv hdone
          exact ⟨rfl, hexp⟩
        | some v =>
          dsimp only
          by_cases h200 : rs ≠ 200
          · rw [if_pos h200]
            by_cases h403 : rs = 403
            · rw [if_pos h403]
              intro hdone
              simp at hdone
            · rw [if_neg h403]
              intro hdone
              obtain ⟨_, hexp⟩ := hInv hdone
              exact ⟨rfl, hexp⟩
          · rw [if_neg h200]
            cases hdec : KlapEncryptionSession.decrypt P es2 rd with
            | none =>
              intro hdone
              obtain ⟨_, hexp⟩ := hInv hdone
              exact ⟨rfl, hexp⟩
            | some d =>
              intro hdone
              obtain ⟨_, hexp⟩ := hInv hdone
              exact ⟨rfl, hexp⟩
  · intro st hInv
    intro hdone
    simp only [KlapTransport.close] at hdone
    obtain ⟨hses, hexp⟩ := hInv hdone
    exact ⟨hses, hexp⟩
  · intro st now hInv hnh
    simp only [KlapTransport.needsHandshake, Bool.or_eq_false_iff,
      Bool.not_eq_false'] at hnh
    exact (hInv hnh.1).1

/-- C9 witness: the invariant theorem evaluated at the test primitives:
the freshly created transport satisfies the invariant, and on the
post-handshake transport the guard consequence yields a present session. -/
theorem c9_transport_invariant_witness :
    KlapInv (KlapTransport.create testPrims v1Variant none) ∧
    readyTransport.encryptionSession.isSome :=
  ⟨(c9_transport_invariant testPrims v1Variant).1 none,
   (c9_transport_invariant testPrims v1Variant).2.2.2.2 readyTransport 0
     (fun _ => ⟨rfl, rfl⟩) (by decide)⟩

theorem performHandshake_error_not_done (P : CryptoPrims) (V : KlapVariant)
    (st : KlapTransportState) (now : Int) (ls h1d : List Nat) (h1s : Nat)
    (cookie : Option (List Nat)) (h2s : Nat) (e : KlapError)
    (hfail : (KlapTransport.performHandshake P V st now ls h1s h1d cookie
      h2s).1 = .error e) :
    (KlapTransport.performHandshake P V st now ls h1s h1d cookie
      h2s).2.handshakeDone = false := by
  rw [KlapTransport.performHandshake] at hfail ⊢
  rcases hh : KlapTransport.performHandshake1 P V
    { st with handshakeDone := false, sessionExpireAt := none, sessionCookie := none }
    ls h1s h1d with ⟨r1, st1⟩
  have hst1 : st1.handshakeDone = false := by
    have := (performHandshake1_state_fields P V
      { st with handshakeDone := false, sessionExpireAt := none, sessionCookie := none }
      ls h1s h1d).1
    rw [hh] at this
    exact this
  cases r1 with
  | error e2 =>
    simp only [hh]
    exact hst1
  | ok v =>
    obtain ⟨ls2, rs2, ah2⟩ := v
    simp only [hh] at hfail ⊢
    rw [KlapTransport.performHandshake2] at hfail ⊢
    by_cases h2 : h2s ≠ 200
    · rw [if_pos h2]
      exact hst1
    · rw [if_neg h2] at hfail
      simp at hfail

/-- C10: perform_handshake clears the handshake state before any network
step, so whenever either stage fails (non-200 handshake replies or no
matching credential candidate), the transport is left with
needs_handshake true at every time, and any subsequent send is rejected
with the pre-handshake error, leaving the state unchanged: the previous
session is never usable again. -/
theorem c10_handshake_failure_invalidates (P : CryptoPrims)
    (V : KlapVariant) (st : KlapTransportState) (now : Int)
    (ls h1d : List Nat) (h1s : Nat) (cookie : Option (List Nat)) (h2s : Nat)
    (e : KlapError)
    (hfail : (KlapTransport.performHandshake P V st now ls h1s h1d cookie
      h2s).1 = .error e) :
    (∀ t, KlapTransport.needsHandshake
      (KlapTransport.performHandshake P V st now ls h1s h1d cookie
        h2s).2 t = true) ∧
    (∀ P2 t req rs rd,
      KlapTransport.send P2
        (KlapTransport.performHandshake P V st now ls h1s h1d cookie
          h2s).2 t req rs rd =
      (.error .smartDevice,
        (KlapTransport.performHandshake P V st now ls h1s h1d cookie
          h2s).2)) := by
  have hdone := performHandshake_error_not_done P V st now ls h1d h1s cookie
    h2s e hfail
  have hneeds : ∀ t, KlapTransport.needsHandshake
      (KlapTransport.performHandshake P V st now ls h1s h1d cookie
        h2s).2 t = true := by
    intro t
    simp [KlapTransport.needsHandshake, hdone]
  refine ⟨hneeds, ?_⟩
  intro P2 t req rs rd
  rw [KlapTransport.send, if_pos (hneeds t)]

/-- C10 witness: a handshake whose first stage is answered with HTTP 500
on the previously established transport fails, and the resulting state
rejects a later send. -/
theorem c10_handshake_failure_invalidates_witness :
    (KlapTransport.performHandshake testPrims v1Variant readyTransport 0
      (List.replicate 16 5) 500 [] none 200).1 = .error .authentication ∧
    KlapTransport.needsHandshake
      (KlapTransport.performHandshake testPrims v1Variant readyTransport 0
        (List.replicate 16 5) 500 [] none 200).2 12345 = true ∧
    KlapTransport.send testPrims
      (KlapTransport.performHandshake testPrims v1Variant readyTransport 0
        (List.replicate 16 5) 500 [] none 200).2 12345 [97] 200 [] =
      (.error .smartDevice,
        (KlapTransport.performHandshake testPrims v1Variant readyTransport 0
          (List.replicate 16 5) 500 [] none 200).2) :=
  ⟨rfl,
   (c10_handshake_failure_invalidates testPrims v1Variant readyTransport 0
      (List.replicate 16 5) [] 500 none 200 .authentication rfl).1 12345,
   (c10_handshake_failure_invalidates testPrims v1Variant readyTransport 0
      (List.replicate 16 5) [] 500 none 200 .authentication rfl).2
      testPrims 12345 [97] 200 []⟩

namespace TPLinkSmartHomeProtocol

theorem queryLoopGo_count_le (attempts : Nat → Attempt) (rc : Nat) :
    ∀ fuel r, (queryLoopGo attempts rc fuel r).2 ≤ fuel := by
  intro fuel
  induction fuel with
  | zero => intro r; simp [queryLoopGo]
  | succ fuel ih =>
    intro r
    rw [queryLoopGo]
    cases hca : (attempts r).connect with
    | refused => simp
    | osError e =>
      dsimp only
      by_cases hcond : e ∈ NO_RETRY_ERRORS ∨ rc ≤ r
      · rw [if_pos hcond]
        simp
      · rw [if_neg hcond]
        exact Nat.succ_le_succ (ih (r + 1))
    | otherError =>
      dsimp only
      by_cases hcond : rc ≤ r
      · rw [if_pos hcond]
        simp
      · rw [if_neg hcond]
        exact Nat.succ_le_succ (ih (r + 1))
    | ok =>
      dsimp only
      cases hq : (attempts r).query with
      | ok resp => simp
      | failure =>
        dsimp only
        by_cases hcond : rc ≤ r
        · rw [if_pos hcond]
          simp
        · rw [if_neg hcond]
          exact Nat.succ_le_succ (ih (r + 1))

theorem queryLoopGo_abort (attempts : Nat → Attempt) (rc fuel r : Nat)
    (h : NonRetryAbort (attempts r)) :
    queryLoopGo attempts rc (fuel + 1) r = (.error .smartDevice, 1) := by
  rw [queryLoopGo]
  rcases h with h | ⟨e, he, hmem⟩
  · simp only [h]
  · simp only [he]
    rw [if_pos (Or.inl hmem)]

theorem queryLoopGo_skip (attempts : Nat → Attempt) (rc fuel r : Nat)
    (h : RetryableFailure (attempts r)) (hlt : r < rc) :
    queryLoopGo attempts rc (fuel + 1) r =
      ((queryLoopGo attempts rc fuel (r + 1)).1,
       (queryLoopGo attempts rc fuel (r + 1)).2 + 1) := by
  rw [queryLoopGo]
  rcases h with ⟨e, he, hmem⟩ | h | ⟨hok, hq⟩
  · simp only [he]
    rw [if_neg]
    rintro (hc | hc)
    · exact hmem hc
    · omega
  · simp only [h]
    rw [if_neg (by omega)]
  · simp only [hok, hq]
    rw [if_neg (by omega)]

theorem queryLoopGo_reaches_abort (attempts : Nat → Attempt) (rc : Nat) :
    ∀ k r, r + k ≤ rc →
      (∀ j, j < k → RetryableFailure (attempts (r + j))) →
      NonRetryAbort (attempts (r + k)) →
      queryLoopGo attempts rc (rc + 1 - r) r =
        (.error .smartDevice, k + 1) := by
  intro k
  induction k with
  | zero =>
    intro r hr _ habort
    obtain ⟨f, hf⟩ : ∃ f, rc + 1 - r = f + 1 := ⟨rc - r, by omega⟩
    rw [hf]
    exact queryLoopGo_abort attempts rc f r (by simpa using habort)
  | succ k ih =>
    intro r hr hretry habort
    obtain ⟨f, hf⟩ : ∃ f, rc + 1 - r = f + 1 := ⟨rc - r, by omega⟩
    have hr0 : RetryableFailure (attempts r) := by
      simpa using hretry 0 (by omega)
    rw [hf, queryLoopGo_skip attempts rc f r hr0 (by omega)]
    have hf2 : f = rc + 1 - (r + 1) := by omega
    have hretry2 : ∀ j, j < k → RetryableFailure (attempts (r + 1 + j)) := by
      intro j hj
      have := hretry (j + 1) (by omega)
      rw [show r + (j + 1) = r + 1 + j by omega] at this
      exact this
    have habort2 : NonRetryAbort (attempts (r + 1 + k)) := by
      rw [show r + 1 + k = r + (k + 1) by omega]
      exact habort
    rw [hf2, ih (r + 1) (by omega) hretry2 habort2]

theorem queryLoopGo_exhausts (attempts : Nat → Attempt) (rc : Nat) :
    ∀ fuel r, fuel = rc + 1 - r → r ≤ rc →
      (∀ j, r ≤ j → j ≤ rc → RetryableFailure (attempts j)) →
      queryLoopGo attempts rc fuel r =
        (.error .smartDevice, rc + 1 - r) := by
  intro fuel
  induction fuel with
  | zero =>
    intro r hf hr _
    exact absurd hf (by omega)
  | succ fuel ih =>
    intro r hf hr hall
    by_cases hlast : r = rc
    · have hone : rc + 1 - r = 1 := by omega
      rw [hone, queryLoopGo]
      rcases hall r le_rfl hr with ⟨e, he, hmem⟩ | h | ⟨hok, hq⟩
      · simp only [he]
        rw [if_pos (Or.inr (by omega))]
      · simp only [h]
        rw [if_pos (by omega)]
      · simp only [hok, hq]
        rw [if_pos (by omega)]
    · rw [queryLoopGo_skip attempts rc fuel r (hall r le_rfl hr) (by omega)]
      rw [ih (r + 1) (by omega) (by omega)
        (fun j h1 h2 => hall j (by omega) h2)]
      show (Except.error KlapError.smartDevice, rc + 1 - (r + 1) + 1) =
        (Except.error KlapError.smartDevice, rc + 1 - r)
      have : rc + 1 - (r + 1) + 1 = rc + 1 - r := by omega
      rw [this]

end TPLinkSmartHomeProtocol

/-- C8: the XOR transport's query loop makes at most retry_count + 1
attempts; a ConnectionRefused, or an OSError whose errno is EHOSTDOWN,
EHOSTUNREACH or ECONNREFUSED, aborts immediately with ProtocolError
without consuming further retries; any other failure is retried until
retry_count is exhausted, after which ProtocolError is raised. -/
theorem c8_xor_query_retry_policy
    (attempts : Nat → TPLinkSmartHomeProtocol.Attempt) (retryCount : Nat) :
    (TPLinkSmartHomeProtocol.queryLoop attempts retryCount).2 ≤
      retryCount + 1 ∧
    (∀ k, k ≤ retryCount →
      (∀ j, j < k → TPLinkSmartHomeProtocol.RetryableFailure (attempts j)) →
      TPLinkSmartHomeProtocol.NonRetryAbort (attempts k) →
      TPLinkSmartHomeProtocol.queryLoop attempts retryCount =
        (.error .smartDevice, k + 1)) ∧
    ((∀ j, j ≤ retryCount →
        TPLinkSmartHomeProtocol.RetryableFailure (attempts j)) →
      TPLinkSmartHomeProtocol.queryLoop attempts retryCount =
        (.error .smartDevice, retryCount + 1)) := by
  refine ⟨?_, ?_, ?_⟩
  · exact TPLinkSmartHomeProtocol.queryLoopGo_count_le attempts retryCount
      (retryCount + 1) 0
  · intro k hk hr ha
    have := TPLinkSmartHomeProtocol.queryLoopGo_reaches_abort attempts
      retryCount k 0 (by omega) (fun j hj => by simpa using hr j hj)
      (by simpa using ha)
    simpa [TPLinkSmartHomeProtocol.queryLoop] using this
  · intro hall
    have := TPLinkSmartHomeProtocol.queryLoopGo_exhausts attempts retryCount
      (retryCount + 1) 0 (by omega) (by omega)
      (fun j _ h2 => hall j h2)
    simpa [TPLinkSmartHomeProtocol.queryLoop] using this

/-- C8 witness: with an environment whose first attempt fails retryably
and whose second gets the connection refused, the loop with retry_count 2
uses exactly two attempts and raises. -/
theorem c8_xor_query_retry_policy_witness :
    (TPLinkSmartHomeProtocol.queryLoop
      TPLinkSmartHomeProtocol.c8TestAttempts 2).2 ≤ 3 ∧
    TPLinkSmartHomeProtocol.queryLoop
      TPLinkSmartHomeProtocol.c8TestAttempts 2 =
      (.error .smartDevice, 2) :=
  ⟨(c8_xor_query_retry_policy TPLinkSmartHomeProtocol.c8TestAttempts 2).1,
   (c8_xor_query_retry_policy TPLinkSmartHomeProtocol.c8TestAttempts 2).2.1
     1 (by omega)
     (fun j hj => by
       have hj0 : j = 0 := by omega
       subst hj0
       exact Or.inr (Or.inl rfl))
     (Or.inl rfl)⟩

end Kasa
